import Mathlib

/-!
Verification of the `hypopt` validation-set grid search against its design
specification.  The repository ships only example notebooks; the
`GridSearch` component itself is therefore modelled from the specification
(definitions marked `Modelled from the spec:`), while the printed summary
line is reproduced from the outputs recorded in
`examples/regression_minimal_working_example.ipynb`.
-/

namespace Hypopt

/-- A hyper-parameter combination: an ordered assignment of one concrete
value to each parameter name. -/
abbrev Combo (V : Type) : Type := List (String × V)

/-- A parameter grid: an ordered mapping from parameter name to the list of
candidate values, insertion order preserved. -/
abbrev Grid (V : Type) : Type := List (String × List V)

/-- Modelled from the spec: grid expansion, which "expands the parameter
grid into the full cartesian product of combinations (deterministic order =
grid insertion order, nested iteration)".  The first listed parameter
varies slowest. -/
def expandGrid {V : Type} : Grid V → List (Combo V)
  | [] => [[]]
  | (k, vs) :: rest =>
      vs.flatMap (fun v => (expandGrid rest).map (fun c => (k, v) :: c))

/-- Modelled from the spec: the score recorded for one combination.
`failed` is the sentinel minimal score recorded when the combination's
evaluation raised; `ok s` is a real score `s`, higher is better. -/
inductive EvalScore : Type where
  | failed : EvalScore
  | ok : ℚ → EvalScore
deriving DecidableEq

/-- Strict comparison of recorded scores: the sentinel `failed` is below
every real score, and real scores compare as rationals. -/
def EvalScore.lt : EvalScore → EvalScore → Prop
  | _, EvalScore.failed => False
  | EvalScore.failed, EvalScore.ok _ => True
  | EvalScore.ok a, EvalScore.ok b => a < b

instance EvalScore.decidableLt : (a b : EvalScore) → Decidable (EvalScore.lt a b)
  | EvalScore.failed, EvalScore.failed => isFalse (fun h => h)
  | EvalScore.ok _, EvalScore.failed => isFalse (fun h => h)
  | EvalScore.failed, EvalScore.ok _ => isTrue trivial
  | EvalScore.ok a, EvalScore.ok b => inferInstanceAs (Decidable (a < b))

/-- Ranking order on evaluation results `(enumeration index, combination,
score)`: descending by score, ties broken by the original enumeration
index. -/
def resLE {V : Type} (a b : ℕ × Combo V × EvalScore) : Prop :=
  EvalScore.lt b.2.2 a.2.2 ∨ (a.2.2 = b.2.2 ∧ a.1 ≤ b.1)

instance resLE.decidableRel {V : Type} : DecidableRel (@resLE V) := fun a b =>
  inferInstanceAs (Decidable (EvalScore.lt b.2.2 a.2.2 ∨ (a.2.2 = b.2.2 ∧ a.1 ≤ b.1)))

/-- Modelled from the spec: the estimator collaborator, "polymorphic over
the capability set {configurable via named parameters, fit(X, y),
score(X, y), optionally predict}", represented as a pure oracle.
`fitScore scoring c train test` is the score, under the optional named
scoring function, obtained by instantiating a fresh estimator with
combination `c`, fitting it on `train` and scoring it on `test`; `none`
models an exception raised during fit or scoring.  `fitPredict c train x`
is the label predicted for `x` after fitting on `train`.  `scorings` lists
the scoring names resolvable for this estimator. -/
structure Estimator (V F L : Type) : Type where
  scorings : List String
  fitScore : Option String → Combo V → List (F × L) → List (F × L) → Option ℚ
  fitPredict : Combo V → List (F × L) → F → L

/-- Sizes of `k` near-even parts of `n` items: every part gets `n / k`
items and the first `n % k` parts get one extra. -/
def foldSizes (n k : ℕ) : List ℕ :=
  (List.range k).map (fun i => n / k + if i < n % k then 1 else 0)

/-- Split a list into consecutive chunks of the given sizes. -/
def splitSized {α : Type} : List ℕ → List α → List (List α)
  | [], _ => []
  | s :: ss, l => l.take s :: splitSized ss (l.drop s)

/-- Modelled from the spec: work partitioning — "combinations are split
into contiguous chunks across available worker threads; chunk sizing favors
even distribution with any remainder distributed to the earliest
workers". -/
def workChunks {α : Type} (w : ℕ) (l : List α) : List (List α) :=
  splitSized (foldSizes l.length w) l

/-- The `k` train/test splits of k-fold cross-validation over `l`: fold `i`
is held out for scoring and the remaining folds, concatenated, are fit
on. -/
def cvSplits {α : Type} (k : ℕ) (l : List α) : List (List α × List α) :=
  let fs := workChunks k l
  (List.range k).map (fun i =>
    ((fs.take i).flatten ++ (fs.drop (i + 1)).flatten, fs.getD i []))

/-- Modelled from the spec: scoring a combination "via k-fold
cross-validation over (X_train, y_train) using the configured fold count":
fit on `k - 1` folds and score on the held-out fold, `k` times, and average
the fold scores; an exception in any fold, or a fold count of zero, makes
the whole combination's evaluation raise. -/
def evalCV {V F L : Type} (est : Estimator V F L) (scoring : Option String)
    (c : Combo V) (train : List (F × L)) (k : ℕ) : Option ℚ :=
  if k = 0 then none
  else
    let runs := (cvSplits k train).map (fun p => est.fitScore scoring c p.1 p.2)
    if runs.all Option.isSome then
      some ((runs.map (fun r => r.getD 0)).sum / (k : ℚ))
    else none

/-- Turn the outcome of one combination's evaluation into the recorded
score: a returned value is recorded as is, a raised exception as the
sentinel minimal score. -/
def toEvalScore : Option ℚ → EvalScore
  | some s => EvalScore.ok s
  | none => EvalScore.failed

/-- Modelled from the spec: the evaluation of one combination inside `fit`:
held-out validation scoring when a validation set is given, k-fold
cross-validation otherwise; a raised exception is caught per combination
and recorded as the sentinel minimal score `EvalScore.failed`. -/
def comboScore {V F L : Type} (est : Estimator V F L) (scoring : Option String)
    (cvFolds : ℕ) (trainD : List (F × L)) (valD : Option (List (F × L)))
    (c : Combo V) : EvalScore :=
  toEvalScore
    (match valD with
     | some vd => est.fitScore scoring c trainD vd
     | none => evalCV est scoring c trainD cvFolds)

/-- Modelled from the spec: parallel dispatch — the combinations are split
into contiguous chunks across the `w` worker threads, each worker evaluates
its own chunk, and the per-worker result lists are collected back in
order. -/
def dispatchScores {V F L : Type} (est : Estimator V F L)
    (scoring : Option String) (cvFolds : ℕ) (trainD : List (F × L))
    (valD : Option (List (F × L))) (w : ℕ) (combos : List (Combo V)) :
    List EvalScore :=
  ((workChunks w combos).map
    (fun chunk => chunk.map (comboScore est scoring cvFolds trainD valD))).flatten

/-- The one-line summary printed by `fit`, with format and numbers
reproduced from the outputs recorded in the example notebook, e.g.
`Comparing 10 parameter setting(s) using 4 CPU thread(s) ( 2 job(s) per
thread ).` -/
def summaryLine (n w j : ℕ) : String :=
  "Comparing " ++ toString n ++ " parameter setting(s) using " ++ toString w ++
    " CPU thread(s) ( " ++ toString j ++ " job(s) per thread )."

/-- Modelled from the spec: the error taxonomy of `fit`. -/
inductive FitError : Type where
  | configurationError : FitError
  | shapeMismatchError : FitError
  | scoringError : FitError
deriving DecidableEq

/-- Modelled from the spec: the error raised by queries issued before a
successful `fit`. -/
inductive QueryError : Type where
  | notFittedError : QueryError
deriving DecidableEq

/-- Modelled from the spec: the retained best model — a fresh estimator
configured with the top-scoring combination, identified by that combination
and by the data it was refit on at the end of `fit`. -/
structure BestModel (V F L : Type) : Type where
  combo : Combo V
  fitData : List (F × L)

/-- Modelled from the spec: the `GridSearch` component's state: the
estimator template and configured fold count from construction, and — set
by a successful `fit` — the scoring name in use, the ranked evaluation
results `(enumeration index, combination, score)` and the retained best
model. -/
structure GridSearch (V F L : Type) : Type where
  model : Estimator V F L
  cv_folds : ℕ
  scoringUsed : Option String
  ranked : List (ℕ × Combo V × EvalScore)
  best : Option (BestModel V F L)

/-- Modelled from the spec: `construct(model_prototype, cv_folds)` "stores
the estimator template and the fold count used when no validation set is
supplied.  No external effects." -/
def GridSearch.construct {V F L : Type} (model : Estimator V F L)
    (cv_folds : ℕ) : GridSearch V F L :=
  ⟨model, cv_folds, none, [], none⟩

/-- Configuration check of `fit`: the grid must be non-empty and every
parameter's candidate list must be non-empty. -/
def gridOK {V : Type} (g : Grid V) : Bool :=
  !g.isEmpty && g.all (fun p => !p.2.isEmpty)

/-- Shape check of `fit`: `X_train`/`y_train` and, when supplied,
`X_val`/`y_val` must have equal first-dimension lengths. -/
def shapesOK {F L : Type} (Xtr : List F) (ytr : List L)
    (val? : Option (List F × List L)) : Bool :=
  Xtr.length == ytr.length &&
    (match val? with
     | some v => v.1.length == v.2.length
     | none => true)

/-- Scoring check of `fit`: a requested scoring name must be resolvable for
the estimator. -/
def scoringOK {V F L : Type} (est : Estimator V F L)
    (scoring : Option String) : Bool :=
  match scoring with
  | some s => est.scorings.contains s
  | none => true

/-- The validation data of `fit`, zipped into (feature, label) rows when
supplied. -/
def valData {F L : Type} (val? : Option (List F × List L)) :
    Option (List (F × L)) :=
  val?.map (fun v => v.1.zip v.2)

/-- The ranked evaluation results computed by a successful `fit`: the grid
is expanded, every combination's evaluation is dispatched across the
`max 1 threads` worker threads, and the results, paired with their
enumeration index, are sorted descending by score with ties broken by
enumeration order. -/
def rankedOf {V F L : Type} (est : Estimator V F L) (cvFolds : ℕ)
    (Xtr : List F) (ytr : List L) (param_grid : Grid V)
    (val? : Option (List F × List L)) (scoring : Option String)
    (threads : ℕ) : List (ℕ × Combo V × EvalScore) :=
  let combos := expandGrid param_grid
  List.insertionSort resLE
    ((combos.zip
        (dispatchScores est scoring cvFolds (Xtr.zip ytr) (valData val?)
          (max 1 threads) combos)).enum)

/-- Modelled from the spec: the data the best combination is refit on at
the end of `fit`: "the union of training and validation data (or ... the
full training set for the cross-validation path)". -/
def refitData {F L : Type} (Xtr : List F) (ytr : List L)
    (val? : Option (List F × List L)) : List (F × L) :=
  match val? with
  | some v => Xtr.zip ytr ++ v.1.zip v.2
  | none => Xtr.zip ytr

/-- The best model retained by a successful `fit`: a fresh estimator
configured with the top-ranked combination, refit on `refitData`. -/
def bestOf {V F L : Type} (est : Estimator V F L) (cvFolds : ℕ)
    (Xtr : List F) (ytr : List L) (param_grid : Grid V)
    (val? : Option (List F × List L)) (scoring : Option String)
    (threads : ℕ) : Option (BestModel V F L) :=
  (rankedOf est cvFolds Xtr ytr param_grid val? scoring threads).head?.map
    (fun top => BestModel.mk top.2.1 (refitData Xtr ytr val?))

/-- Modelled from the spec: the body of `fit`.  After the fail-fast
configuration, shape and scoring checks, it expands the grid, dispatches
the evaluation of every combination across `max 1 threads` worker threads
(`threads` is the ambient count of available parallel-processing units),
ranks the results descending by score with ties broken by enumeration
order, retains the top combination refit on train plus validation data (or
on the full training set on the cross-validation path), and produces the
printed one-line summary. -/
def fitCore {V F L : Type} (est : Estimator V F L) (cvFolds : ℕ)
    (Xtr : List F) (ytr : List L) (param_grid : Grid V)
    (val? : Option (List F × List L)) (scoring : Option String)
    (threads : ℕ) :
    Except FitError
      (List (ℕ × Combo V × EvalScore) × Option (BestModel V F L) × String) :=
  if gridOK param_grid then
    if shapesOK Xtr ytr val? then
      if scoringOK est scoring then
        Except.ok
          (rankedOf est cvFolds Xtr ytr param_grid val? scoring threads,
           bestOf est cvFolds Xtr ytr param_grid val? scoring threads,
           summaryLine (expandGrid param_grid).length (max 1 threads)
             (max 1 ((expandGrid param_grid).length / max 1 threads)))
      else Except.error FitError.scoringError
    else Except.error FitError.shapeMismatchError
  else Except.error FitError.configurationError

/-- Modelled from the spec: `fit(X_train, y_train, param_grid, X_val,
y_val, scoring)`.  On success the state's scoring name, ranked results and
best model are replaced and the printed summary line is returned alongside
the new state; on failure the fail-fast error is returned. -/
def GridSearch.fit {V F L : Type} (gs : GridSearch V F L) (Xtr : List F)
    (ytr : List L) (param_grid : Grid V) (val? : Option (List F × List L))
    (scoring : Option String) (threads : ℕ) :
    Except FitError (GridSearch V F L × String) :=
  (fitCore gs.model gs.cv_folds Xtr ytr param_grid val? scoring threads).map
    (fun out => ({ gs with scoringUsed := scoring, ranked := out.1,
                           best := out.2.1 }, out.2.2))

/-- The stateful view of `fit`: on success the new state, on failure the
unchanged state together with the error; the optional string is the printed
summary line. -/
def GridSearch.fitS {V F L : Type} (gs : GridSearch V F L) (Xtr : List F)
    (ytr : List L) (param_grid : Grid V) (val? : Option (List F × List L))
    (scoring : Option String) (threads : ℕ) :
    GridSearch V F L × Option FitError × Option String :=
  match gs.fit Xtr ytr param_grid val? scoring threads with
  | Except.ok out => (out.1, none, some out.2)
  | Except.error e => (gs, some e, none)

/-- Modelled from the spec: `get_param_scores()` "returns the full ordered
sequence of (combination, score) pairs, descending by score, for
inspection; empty sequence if `fit` has not been called." -/
def GridSearch.get_param_scores {V F L : Type} (gs : GridSearch V F L) :
    List (Combo V × EvalScore) :=
  gs.ranked.map Prod.snd

/-- Modelled from the spec: `score(X, y)` "delegates to the retained best
model's own scoring; fails with NotFittedError if called before
`fit`". -/
def GridSearch.score {V F L : Type} (gs : GridSearch V F L) (X : List F)
    (y : List L) : Except QueryError (Option ℚ) :=
  match gs.best with
  | none => Except.error QueryError.notFittedError
  | some bm => Except.ok (gs.model.fitScore gs.scoringUsed bm.combo bm.fitData (X.zip y))

/-- Modelled from the spec: `predict(X)` "delegates to the best model; same
not-fitted failure". -/
def GridSearch.predict {V F L : Type} (gs : GridSearch V F L) (X : List F) :
    Except QueryError (List L) :=
  match gs.best with
  | none => Except.error QueryError.notFittedError
  | some bm => Except.ok (X.map (gs.model.fitPredict bm.combo bm.fitData))

/-- One read-only query against the search state. -/
inductive Query (F L : Type) : Type where
  | score : List F → List L → Query F L
  | predict : List F → Query F L
  | getParamScores : Query F L

/-- The observable answer of one query. -/
inductive QueryResult (V F L : Type) : Type where
  | scored : Except QueryError (Option ℚ) → QueryResult V F L
  | predicted : Except QueryError (List L) → QueryResult V F L
  | table : List (Combo V × EvalScore) → QueryResult V F L

/-- Modelled from the spec: running one query against the search state.
Queries compute from the retained best model and the stored results and
assign nothing, so each returns the state it was given. -/
def runQuery {V F L : Type} (gs : GridSearch V F L) :
    Query F L → QueryResult V F L × GridSearch V F L
  | Query.score X y => (QueryResult.scored (gs.score X y), gs)
  | Query.predict X => (QueryResult.predicted (gs.predict X), gs)
  | Query.getParamScores => (QueryResult.table gs.get_param_scores, gs)

/-- Running a sequence of queries, threading the state left to right. -/
def runQueries {V F L : Type} (gs : GridSearch V F L) :
    List (Query F L) → List (QueryResult V F L) × GridSearch V F L
  | [] => ([], gs)
  | q :: qs =>
    let step := runQuery gs q
    let rest := runQueries step.2 qs
    (step.1 :: rest.1, rest.2)

/-! ### Concrete instances used to exercise the development -/

/-- A small deterministic estimator on ℕ-valued parameters and data: the
score is the sum of the combination's parameter values plus the size of the
scored dataset, and prediction is the identity on features. -/
def estW : Estimator ℕ ℕ ℕ :=
  ⟨["r2"],
   fun _ c _ test => some ((c.map (fun p => (p.2 : ℚ))).sum + (test.length : ℚ)),
   fun _ _ x => x⟩

def gsW : GridSearch ℕ ℕ ℕ := GridSearch.construct estW 3

def gridW : Grid ℕ := [("C", [1, 10]), ("gamma", [4])]

def XW : List ℕ := [1, 2, 3]

def yW : List ℕ := [4, 5, 6]

def XvW : List ℕ := [7]

def yvW : List ℕ := [8]

/-- A run of `fit` on the validation-set path. -/
def fitW : Except FitError (GridSearch ℕ ℕ ℕ × String) :=
  gsW.fit XW yW gridW (some (XvW, yvW)) (some "r2") 4

def gsW1 : GridSearch ℕ ℕ ℕ :=
  match fitW with
  | Except.ok out => out.1
  | Except.error _ => gsW

def msgW : String :=
  match fitW with
  | Except.ok out => out.2
  | Except.error _ => ""

/-- A run of `fit` on the cross-validation path (no validation set). -/
def fitW2 : Except FitError (GridSearch ℕ ℕ ℕ × String) :=
  gsW.fit XW yW gridW none (some "r2") 4

def gsW2 : GridSearch ℕ ℕ ℕ :=
  match fitW2 with
  | Except.ok out => out.1
  | Except.error _ => gsW

def msgW2 : String :=
  match fitW2 with
  | Except.ok out => out.2
  | Except.error _ => ""

/-- An estimator whose evaluation raises on every combination that sets
parameter `C` to `10`, and succeeds elsewhere. -/
def estF : Estimator ℕ ℕ ℕ :=
  ⟨["r2"],
   fun _ c _ _ =>
     if c.contains ("C", 10) then none
     else some ((c.map (fun p => (p.2 : ℚ))).sum),
   fun _ _ x => x⟩

def gsF : GridSearch ℕ ℕ ℕ := GridSearch.construct estF 3

/-- A run of `fit` in which one combination's evaluation raises. -/
def fitF : Except FitError (GridSearch ℕ ℕ ℕ × String) :=
  gsF.fit XW yW gridW (some (XvW, yvW)) (some "r2") 4

def gsF1 : GridSearch ℕ ℕ ℕ :=
  match fitF with
  | Except.ok out => out.1
  | Except.error _ => gsF

def msgF : String :=
  match fitF with
  | Except.ok out => out.2
  | Except.error _ => ""

/-- A grid of four combinations, mirroring the notebook run whose recorded
output is `Comparing 4 parameter setting(s) using 12 CPU thread(s) ( 1
job(s) per thread ).` -/
def gridC7 : Grid ℕ := [("hidden", [1, 2]), ("rate", [3, 4])]

/-- The four-combination `fit` run with 12 available CPU threads. -/
def fitC7 : Except FitError (GridSearch ℕ ℕ ℕ × String) :=
  gsW.fit XW yW gridC7 (some (XvW, yvW)) none 12

def gsC71 : GridSearch ℕ ℕ ℕ :=
  match fitC7 with
  | Except.ok out => out.1
  | Except.error _ => gsW

def msgC7 : String :=
  match fitC7 with
  | Except.ok out => out.2
  | Except.error _ => ""

/-! ### Order facts about recorded scores and the ranking relation -/

theorem EvalScore.not_lt_failed (s : EvalScore) : ¬ EvalScore.lt s EvalScore.failed := by
  cases s <;> exact fun h => h

theorem EvalScore.ltIrrefl (a : EvalScore) : ¬ EvalScore.lt a a := by
  cases a with
  | failed => exact fun h => h
  | ok q => exact fun h => absurd h (by simp [EvalScore.lt])

theorem EvalScore.ltTrans {a b c : EvalScore} (h1 : EvalScore.lt a b)
    (h2 : EvalScore.lt b c) : EvalScore.lt a c := by
  cases a <;> cases b <;> cases c <;>
    simp only [EvalScore.lt] at h1 h2 ⊢ <;>
    first
      | trivial
      | exact h1.elim
      | exact h2.elim
      | exact h1.trans h2

theorem EvalScore.ltAsymm {a b : EvalScore} (h : EvalScore.lt a b) :
    ¬ EvalScore.lt b a := by
  intro h'
  exact EvalScore.ltIrrefl a (EvalScore.ltTrans h h')

theorem EvalScore.ltTrichotomy (a b : EvalScore) :
    EvalScore.lt a b ∨ a = b ∨ EvalScore.lt b a := by
  cases a with
  | failed =>
      cases b with
      | failed => exact Or.inr (Or.inl rfl)
      | ok q => exact Or.inl trivial
  | ok p =>
      cases b with
      | failed => exact Or.inr (Or.inr trivial)
      | ok q =>
          rcases lt_trichotomy p q with h | h | h
          · exact Or.inl h
          · exact Or.inr (Or.inl (by rw [h]))
          · exact Or.inr (Or.inr h)

instance resLE.isTotal {V : Type} : IsTotal (ℕ × Combo V × EvalScore) resLE :=
  ⟨fun a b => by
    rcases EvalScore.ltTrichotomy b.2.2 a.2.2 with h | h | h
    · exact Or.inl (Or.inl h)
    · rcases Nat.le_total a.1 b.1 with hle | hle
      · exact Or.inl (Or.inr ⟨h.symm, hle⟩)
      · exact Or.inr (Or.inr ⟨h, hle⟩)
    · exact Or.inr (Or.inl h)⟩

instance resLE.isTrans {V : Type} : IsTrans (ℕ × Combo V × EvalScore) resLE :=
  ⟨fun a b c hab hbc => by
    rcases hab with h1 | ⟨e1, i1⟩ <;> rcases hbc with h2 | ⟨e2, i2⟩
    · exact Or.inl (EvalScore.ltTrans h2 h1)
    · exact Or.inl (by rw [← e2]; exact h1)
    · exact Or.inl (by rw [e1]; exact h2)
    · exact Or.inr ⟨e1.trans e2, le_trans i1 i2⟩⟩

theorem resLE.refl {V : Type} (a : ℕ × Combo V × EvalScore) : resLE a a :=
  Or.inr ⟨rfl, le_refl _⟩

/-- An entry ranked no later than another never has the strictly smaller
score. -/
theorem resLE.score_not_lt {V : Type} {a b : ℕ × Combo V × EvalScore}
    (h : resLE a b) : ¬ EvalScore.lt a.2.2 b.2.2 := by
  rcases h with h | ⟨e, _⟩
  · exact EvalScore.ltAsymm h
  · rw [e]; exact EvalScore.ltIrrefl b.2.2

/-! ### Work partitioning -/

theorem countLt_sum (r k : ℕ) :
    ((List.range k).map (fun i => if i < r then 1 else 0)).sum = min r k := by
  induction k with
  | zero => simp
  | succ k ih =>
      rw [List.range_succ, List.map_append, List.sum_append, ih]
      by_cases h : k < r
      · simp only [h, if_true, List.map_cons, List.map_nil, List.sum_cons,
          List.sum_nil]
        omega
      · simp only [h, if_false, List.map_cons, List.map_nil, List.sum_cons,
          List.sum_nil]
        omega

theorem foldSizes_length (n k : ℕ) : (foldSizes n k).length = k := by
  simp [foldSizes]

theorem foldSizes_sum (n k : ℕ) (hk : 0 < k) : (foldSizes n k).sum = n := by
  unfold foldSizes
  have hsplit :
      ((List.range k).map (fun i => n / k + if i < n % k then 1 else 0)).sum
        = ((List.range k).map (fun _ => n / k)).sum
          + ((List.range k).map (fun i => if i < n % k then 1 else 0)).sum := by
    induction k with
    | zero => simp
    | succ m ih =>
        rw [List.range_succ]
        simp only [List.map_append, List.sum_append, ih]
        simp
        omega
  rw [hsplit, countLt_sum]
  have hconst : ((List.range k).map (fun _ => n / k)).sum = k * (n / k) := by
    rw [List.map_const', List.sum_replicate, List.length_range, smul_eq_mul]
  rw [hconst, Nat.min_eq_left (le_of_lt (Nat.mod_lt n hk))]
  exact Nat.div_add_mod n k

theorem splitSized_length {α : Type} (ss : List ℕ) :
    ∀ l : List α, (splitSized ss l).length = ss.length := by
  induction ss with
  | nil => intro l; rfl
  | cons s ss ih => intro l; simp [splitSized, ih]

theorem splitSized_flatten {α : Type} (ss : List ℕ) :
    ∀ l : List α, (splitSized ss l).flatten = l.take ss.sum := by
  induction ss with
  | nil => intro l; simp [splitSized]
  | cons s ss ih =>
      intro l
      simp only [splitSized, List.flatten_cons, ih, List.sum_cons]
      rw [List.take_add]

theorem workChunks_length {α : Type} (w : ℕ) (l : List α) :
    (workChunks w l).length = w := by
  rw [workChunks, splitSized_length, foldSizes_length]

theorem workChunks_flatten {α : Type} (w : ℕ) (hw : 0 < w) (l : List α) :
    (workChunks w l).flatten = l := by
  rw [workChunks, splitSized_flatten, foldSizes_sum _ _ hw, List.take_length]

theorem splitSized_getD_length {α : Type} (ss : List ℕ) :
    ∀ (l : List α) (i : ℕ), ss.sum ≤ l.length → i < ss.length →
      ((splitSized ss l).getD i []).length = ss.getD i 0 := by
  induction ss with
  | nil => intro l i _ hi; exact absurd hi (by simp)
  | cons s ss ih =>
      intro l i hsum hi
      cases i with
      | zero =>
          simp only [splitSized, List.getD_cons_zero, List.length_take]
          simp only [List.sum_cons] at hsum
          omega
      | succ i =>
          simp only [splitSized, List.getD_cons_succ]
          apply ih
          · simp only [List.sum_cons] at hsum
            simp only [List.length_drop]
            omega
          · simpa using hi

/-- Chunk `i` of the work partition holds `n / w` combinations plus one of
the remainder when `i < n % w`: sizes are as even as possible with the
remainder on the earliest workers. -/
theorem workChunks_getD_length {α : Type} (w : ℕ) (hw : 0 < w) (l : List α)
    (i : ℕ) (hi : i < w) :
    ((workChunks w l).getD i []).length
      = l.length / w + if i < l.length % w then 1 else 0 := by
  rw [workChunks, splitSized_getD_length]
  · unfold foldSizes
    rw [List.getD_eq_getElem _ _ (by simpa [foldSizes] using hi)]
    simp [hi]
  · rw [foldSizes_sum _ _ hw]
  · rw [foldSizes_length]; exact hi

theorem dispatchScores_eq_map {V F L : Type} (est : Estimator V F L)
    (scoring : Option String) (cvFolds : ℕ) (trainD : List (F × L))
    (valD : Option (List (F × L))) (w : ℕ) (hw : 0 < w)
    (combos : List (Combo V)) :
    dispatchScores est scoring cvFolds trainD valD w combos
      = combos.map (comboScore est scoring cvFolds trainD valD) := by
  rw [dispatchScores, ← List.map_flatten, workChunks_flatten _ hw]

/-! ### Grid expansion -/

theorem expandGrid_cons {V : Type} (k : String) (vs : List V) (rest : Grid V) :
    expandGrid ((k, vs) :: rest)
      = vs.flatMap (fun v => (expandGrid rest).map (fun c => (k, v) :: c)) :=
  rfl

theorem expandGrid_length {V : Type} (g : Grid V) :
    (expandGrid g).length = (g.map (fun p => p.2.length)).prod := by
  induction g with
  | nil => rfl
  | cons p rest ih =>
      obtain ⟨k, vs⟩ := p
      rw [expandGrid_cons, List.length_flatMap]
      simp only [Function.comp_def, List.length_map, ih, List.map_cons,
        List.prod_cons]
      rw [List.map_const', List.sum_replicate, smul_eq_mul]

theorem expandGrid_keys {V : Type} (g : Grid V) :
    ∀ c ∈ expandGrid g, c.map Prod.fst = g.map Prod.fst := by
  induction g with
  | nil =>
      intro c hc
      simp only [expandGrid, List.mem_singleton] at hc
      subst hc
      rfl
  | cons p rest ih =>
      obtain ⟨k, vs⟩ := p
      intro c hc
      rw [expandGrid_cons, List.mem_flatMap] at hc
      obtain ⟨v, _, hc⟩ := hc
      rw [List.mem_map] at hc
      obtain ⟨c', hc', rfl⟩ := hc
      simp only [List.map_cons]
      rw [ih c' hc']

theorem expandGrid_ne_nil {V : Type} (g : Grid V) (h : gridOK g = true) :
    expandGrid g ≠ [] := by
  have hpos : 0 < (expandGrid g).length := by
    rw [expandGrid_length]
    apply List.prod_pos
    intro a ha
    rw [List.mem_map] at ha
    obtain ⟨p, hp, rfl⟩ := ha
    rw [gridOK, Bool.and_eq_true, List.all_eq_true] at h
    have hne := h.2 p hp
    rw [Bool.not_eq_true', List.isEmpty_eq_false] at hne
    exact List.length_pos.mpr hne
  exact List.ne_nil_of_length_pos hpos

/-! ### The ranked result list -/

theorem zip_map_self {α β : Type} (f : α → β) (l : List α) :
    l.zip (l.map f) = l.map (fun a => (a, f a)) := by
  have := List.zip_map' id f l
  simpa using this

/-- The list actually sorted by `fit`: every combination of the expanded
grid, paired with its enumeration index and its evaluation. -/
theorem rankedOf_perm {V F L : Type} (est : Estimator V F L) (cvFolds : ℕ)
    (Xtr : List F) (ytr : List L) (param_grid : Grid V)
    (val? : Option (List F × List L)) (scoring : Option String)
    (threads : ℕ) :
    (rankedOf est cvFolds Xtr ytr param_grid val? scoring threads).Perm
      (((expandGrid param_grid).map
          (fun c => (c, comboScore est scoring cvFolds (Xtr.zip ytr)
            (valData val?) c))).enum) := by
  show (List.insertionSort resLE
      (((expandGrid param_grid).zip
        (dispatchScores est scoring cvFolds (Xtr.zip ytr) (valData val?)
          (max 1 threads) (expandGrid param_grid))).enum)).Perm _
  rw [dispatchScores_eq_map _ _ _ _ _ _ (by omega), zip_map_self]
  exact List.perm_insertionSort resLE _

theorem rankedOf_sorted {V F L : Type} (est : Estimator V F L) (cvFolds : ℕ)
    (Xtr : List F) (ytr : List L) (param_grid : Grid V)
    (val? : Option (List F × List L)) (scoring : Option String)
    (threads : ℕ) :
    List.Sorted resLE (rankedOf est cvFolds Xtr ytr param_grid val? scoring threads) :=
  List.sorted_insertionSort resLE _

theorem mem_rankedOf {V F L : Type} {est : Estimator V F L} {cvFolds : ℕ}
    {Xtr : List F} {ytr : List L} {param_grid : Grid V}
    {val? : Option (List F × List L)} {scoring : Option String}
    {threads : ℕ} {r : ℕ × Combo V × EvalScore}
    (hr : r ∈ rankedOf est cvFolds Xtr ytr param_grid val? scoring threads) :
    r.2.1 ∈ expandGrid param_grid ∧
      r.2.2 = comboScore est scoring cvFolds (Xtr.zip ytr) (valData val?) r.2.1 := by
  have hmem : r ∈ ((expandGrid param_grid).map
      (fun c => (c, comboScore est scoring cvFolds (Xtr.zip ytr)
        (valData val?) c))).enum :=
    (rankedOf_perm est cvFolds Xtr ytr param_grid val? scoring threads).subset hr
  have h2 : r.2 ∈ (expandGrid param_grid).map
      (fun c => (c, comboScore est scoring cvFolds (Xtr.zip ytr)
        (valData val?) c)) := by
    have := List.mem_map_of_mem Prod.snd hmem
    rwa [List.enum_map_snd] at this
  rw [List.mem_map] at h2
  obtain ⟨c, hc, hcr⟩ := h2
  constructor
  · have : r.2.1 = c := by rw [← hcr]
    rw [this]; exact hc
  · have h1 : r.2.1 = c := by rw [← hcr]
    have h2' : r.2.2 = comboScore est scoring cvFolds (Xtr.zip ytr) (valData val?) c := by
      rw [← hcr]
    rw [h2', h1]

theorem rankedOf_length {V F L : Type} (est : Estimator V F L) (cvFolds : ℕ)
    (Xtr : List F) (ytr : List L) (param_grid : Grid V)
    (val? : Option (List F × List L)) (scoring : Option String)
    (threads : ℕ) :
    (rankedOf est cvFolds Xtr ytr param_grid val? scoring threads).length
      = (expandGrid param_grid).length := by
  rw [(rankedOf_perm est cvFolds Xtr ytr param_grid val? scoring threads).length_eq]
  simp

/-! ### Characterisation of `fit` -/

theorem fit_ok_of_checks {V F L : Type} (gs : GridSearch V F L) (Xtr : List F)
    (ytr : List L) (param_grid : Grid V) (val? : Option (List F × List L))
    (scoring : Option String) (threads : ℕ)
    (h1 : gridOK param_grid = true) (h2 : shapesOK Xtr ytr val? = true)
    (h3 : scoringOK gs.model scoring = true) :
    gs.fit Xtr ytr param_grid val? scoring threads =
      Except.ok
        ({ gs with scoringUsed := scoring,
                   ranked := rankedOf gs.model gs.cv_folds Xtr ytr param_grid val? scoring threads,
                   best := bestOf gs.model gs.cv_folds Xtr ytr param_grid val? scoring threads },
         summaryLine (expandGrid param_grid).length (max 1 threads)
           (max 1 ((expandGrid param_grid).length / max 1 threads))) := by
  unfold GridSearch.fit fitCore
  rw [h1, h2, h3]
  rfl

theorem fit_config_error {V F L : Type} (gs : GridSearch V F L) (Xtr : List F)
    (ytr : List L) (param_grid : Grid V) (val? : Option (List F × List L))
    (scoring : Option String) (threads : ℕ)
    (h1 : gridOK param_grid = false) :
    gs.fit Xtr ytr param_grid val? scoring threads
      = Except.error FitError.configurationError := by
  unfold GridSearch.fit fitCore
  rw [h1]
  rfl

theorem fit_shape_error {V F L : Type} (gs : GridSearch V F L) (Xtr : List F)
    (ytr : List L) (param_grid : Grid V) (val? : Option (List F × List L))
    (scoring : Option String) (threads : ℕ)
    (h1 : gridOK param_grid = true) (h2 : shapesOK Xtr ytr val? = false) :
    gs.fit Xtr ytr param_grid val? scoring threads
      = Except.error FitError.shapeMismatchError := by
  unfold GridSearch.fit fitCore
  rw [h1, h2]
  rfl

theorem fit_scoring_error {V F L : Type} (gs : GridSearch V F L) (Xtr : List F)
    (ytr : List L) (param_grid : Grid V) (val? : Option (List F × List L))
    (scoring : Option String) (threads : ℕ)
    (h1 : gridOK param_grid = true) (h2 : shapesOK Xtr ytr val? = true)
    (h3 : scoringOK gs.model scoring = false) :
    gs.fit Xtr ytr param_grid val? scoring threads
      = Except.error FitError.scoringError := by
  unfold GridSearch.fit fitCore
  rw [h1, h2, h3]
  rfl

theorem fit_ok_spec {V F L : Type} {gs : GridSearch V F L} {Xtr : List F}
    {ytr : List L} {param_grid : Grid V} {val? : Option (List F × List L)}
    {scoring : Option String} {threads : ℕ} {gs₁ : GridSearch V F L}
    {msg : String}
    (h : gs.fit Xtr ytr param_grid val? scoring threads = Except.ok (gs₁, msg)) :
    gridOK param_grid = true ∧ shapesOK Xtr ytr val? = true ∧
    scoringOK gs.model scoring = true ∧
    gs₁ = { gs with scoringUsed := scoring,
                    ranked := rankedOf gs.model gs.cv_folds Xtr ytr param_grid val? scoring threads,
                    best := bestOf gs.model gs.cv_folds Xtr ytr param_grid val? scoring threads } ∧
    msg = summaryLine (expandGrid param_grid).length (max 1 threads)
            (max 1 ((expandGrid param_grid).length / max 1 threads)) := by
  by_cases h1 : gridOK param_grid
  · by_cases h2 : shapesOK Xtr ytr val?
    · by_cases h3 : scoringOK gs.model scoring
      · rw [fit_ok_of_checks gs Xtr ytr param_grid val? scoring threads h1 h2 h3] at h
        have hp := Except.ok.inj h
        injection hp with hA hB
        exact ⟨h1, h2, h3, hA.symm, hB.symm⟩
      · rw [Bool.not_eq_true] at h3
        rw [fit_scoring_error gs Xtr ytr param_grid val? scoring threads h1 h2 h3] at h
        exact Except.noConfusion h
    · rw [Bool.not_eq_true] at h2
      rw [fit_shape_error gs Xtr ytr param_grid val? scoring threads h1 h2] at h
      exact Except.noConfusion h
  · rw [Bool.not_eq_true] at h1
    rw [fit_config_error gs Xtr ytr param_grid val? scoring threads h1] at h
    exact Except.noConfusion h

/-! ### The two scoring paths of `comboScore` -/

theorem comboScore_some {V F L : Type} (est : Estimator V F L)
    (scoring : Option String) (cvFolds : ℕ) (trainD vd : List (F × L))
    (c : Combo V) :
    comboScore est scoring cvFolds trainD (some vd) c
      = toEvalScore (est.fitScore scoring c trainD vd) := rfl

theorem comboScore_none {V F L : Type} (est : Estimator V F L)
    (scoring : Option String) (cvFolds : ℕ) (trainD : List (F × L))
    (c : Combo V) :
    comboScore est scoring cvFolds trainD none c
      = toEvalScore (evalCV est scoring c trainD cvFolds) := rfl

theorem rankedOf_some_cvFolds {V F L : Type} (est : Estimator V F L)
    (k k' : ℕ) (Xtr : List F) (ytr : List L) (param_grid : Grid V)
    (Xv : List F) (yv : List L) (scoring : Option String) (threads : ℕ) :
    rankedOf est k Xtr ytr param_grid (some (Xv, yv)) scoring threads
      = rankedOf est k' Xtr ytr param_grid (some (Xv, yv)) scoring threads := rfl

theorem bestOf_some_cvFolds {V F L : Type} (est : Estimator V F L)
    (k k' : ℕ) (Xtr : List F) (ytr : List L) (param_grid : Grid V)
    (Xv : List F) (yv : List L) (scoring : Option String) (threads : ℕ) :
    bestOf est k Xtr ytr param_grid (some (Xv, yv)) scoring threads
      = bestOf est k' Xtr ytr param_grid (some (Xv, yv)) scoring threads := rfl

/-! ### Claim theorems -/

/-- C1: for every non-empty parameter grid, after a successful call to
`fit`, `get_param_scores()` returns exactly one (combination, score) entry
for each element of the cartesian product of the grid's value sequences —
it is a permutation of the expanded grid with each combination's recorded
evaluation — and the entries are sorted descending by score with ties
broken by the combinations' original enumeration order: the internally
ranked list, a permutation of the enumeration-indexed table, is sorted
under `resLE`, and the returned table is its projection, so scores never
increase along it. -/
theorem C1_param_scores_complete_sorted {V F L : Type} (gs : GridSearch V F L)
    (Xtr : List F) (ytr : List L) (param_grid : Grid V)
    (val? : Option (List F × List L)) (scoring : Option String) (threads : ℕ)
    (gs₁ : GridSearch V F L) (msg : String)
    (h : gs.fit Xtr ytr param_grid val? scoring threads = Except.ok (gs₁, msg)) :
    gs₁.get_param_scores.Perm
        ((expandGrid param_grid).map
          (fun c => (c, comboScore gs.model scoring gs.cv_folds (Xtr.zip ytr)
            (valData val?) c))) ∧
    gs₁.ranked.Perm
        (((expandGrid param_grid).map
          (fun c => (c, comboScore gs.model scoring gs.cv_folds (Xtr.zip ytr)
            (valData val?) c))).enum) ∧
    List.Sorted resLE gs₁.ranked ∧
    gs₁.get_param_scores = gs₁.ranked.map Prod.snd ∧
    List.Pairwise (fun a b => ¬ EvalScore.lt a.2 b.2) gs₁.get_param_scores := by
  obtain ⟨h1, h2, h3, hgs, hmsg⟩ := fit_ok_spec h
  subst hgs
  refine ⟨?_, ?_, ?_, rfl, ?_⟩
  · have hp := (rankedOf_perm gs.model gs.cv_folds Xtr ytr param_grid val?
      scoring threads).map Prod.snd
    rwa [List.enum_map_snd] at hp
  · exact rankedOf_perm gs.model gs.cv_folds Xtr ytr param_grid val? scoring threads
  · exact rankedOf_sorted gs.model gs.cv_folds Xtr ytr param_grid val? scoring threads
  · exact List.Pairwise.map Prod.snd (fun a b hab => resLE.score_not_lt hab)
      (rankedOf_sorted gs.model gs.cv_folds Xtr ytr param_grid val? scoring threads)

/-- C1 witness: the validation-path run `fitW` succeeds and its score table
is a permutation of the expanded grid with each combination's recorded
evaluation. -/
theorem C1_witness :
    gsW.fit XW yW gridW (some (XvW, yvW)) (some "r2") 4 = Except.ok (gsW1, msgW) ∧
    gsW1.get_param_scores.Perm
      ((expandGrid gridW).map
        (fun c => (c, comboScore gsW.model (some "r2") gsW.cv_folds (XW.zip yW)
          (valData (some (XvW, yvW))) c))) :=
  ⟨rfl,
   (C1_param_scores_complete_sorted gsW XW yW gridW (some (XvW, yvW))
      (some "r2") 4 gsW1 msgW rfl).1⟩

/-- C5: before the first successful `fit` call on a `GridSearch` instance,
`score` and `predict` fail with NotFittedError and `get_param_scores()`
returns the empty sequence. -/
theorem C5_not_fitted {V F L : Type} (model : Estimator V F L) (cv_folds : ℕ)
    (X : List F) (y : List L) :
    (GridSearch.construct model cv_folds).score X y
        = Except.error QueryError.notFittedError ∧
    (GridSearch.construct model cv_folds).predict X
        = Except.error QueryError.notFittedError ∧
    (GridSearch.construct model cv_folds).get_param_scores = [] :=
  ⟨rfl, rfl, rfl⟩

/-- C6: `fit` is idempotent for the (deterministic, purely functional)
estimator model: a second `fit` of the fitted state with the same training
data, grid, validation data and scoring returns exactly the same state —
hence the same best combination and the same sorted score sequence — and
the same printed summary. -/
theorem C6_fit_idempotent {V F L : Type} (gs : GridSearch V F L)
    (Xtr : List F) (ytr : List L) (param_grid : Grid V)
    (val? : Option (List F × List L)) (scoring : Option String) (threads : ℕ)
    (gs₁ : GridSearch V F L) (msg : String)
    (h : gs.fit Xtr ytr param_grid val? scoring threads = Except.ok (gs₁, msg)) :
    gs₁.fit Xtr ytr param_grid val? scoring threads = Except.ok (gs₁, msg) := by
  obtain ⟨h1, h2, h3, hgs, hmsg⟩ := fit_ok_spec h
  subst hgs hmsg
  exact fit_ok_of_checks _ Xtr ytr param_grid val? scoring threads h1 h2 h3

/-- C6 witness: refitting the fitted state of the concrete run `fitW`
returns that state unchanged. -/
theorem C6_witness :
    gsW1.fit XW yW gridW (some (XvW, yvW)) (some "r2") 4
      = Except.ok (gsW1, msgW) :=
  C6_fit_idempotent gsW XW yW gridW (some (XvW, yvW)) (some "r2") 4 gsW1 msgW rfl

/-- C10: after `fit`, `score`, `predict` and `get_param_scores` are pure
queries: running any sequence of them leaves the `GridSearch` state
unchanged and each call returns exactly what it would return if run alone
against that state, so queries can be repeated or interleaved in any order
and equal arguments give equal results until the next `fit`. -/
theorem C10_queries_pure {V F L : Type} (gs : GridSearch V F L)
    (qs : List (Query F L)) :
    runQueries gs qs = (qs.map (fun q => (runQuery gs q).1), gs) := by
  induction qs with
  | nil => rfl
  | cons q qs ih =>
      have hstate : (runQuery gs q).2 = gs := by cases q <;> rfl
      simp only [runQueries, List.map_cons]
      rw [hstate, ih]

/-- C2: `fit` uses held-out validation scoring if and only if a validation
set is supplied.  With `X_val`/`y_val`, every combination's recorded score
is the estimator's score on the validation data and the whole result is
independent of the configured fold count, so cross-validation is never
used; without them, every combination's recorded score is the k-fold
cross-validation score over the training data with the configured fold
count, and no validation set is required. -/
theorem C2_validation_vs_cv {V F L : Type} (gs : GridSearch V F L)
    (Xtr : List F) (ytr : List L) (param_grid : Grid V)
    (scoring : Option String) (threads : ℕ) :
    (∀ (Xv : List F) (yv : List L) (gs₁ : GridSearch V F L) (msg : String),
       gs.fit Xtr ytr param_grid (some (Xv, yv)) scoring threads
           = Except.ok (gs₁, msg) →
       (∀ r ∈ gs₁.ranked,
          r.2.2 = toEvalScore
            (gs.model.fitScore scoring r.2.1 (Xtr.zip ytr) (Xv.zip yv))) ∧
       (∀ k' : ℕ,
          (GridSearch.mk gs.model k' gs.scoringUsed gs.ranked gs.best).fit
              Xtr ytr param_grid (some (Xv, yv)) scoring threads
            = Except.ok
                (GridSearch.mk gs.model k' scoring gs₁.ranked gs₁.best, msg))) ∧
    (∀ (gs₁ : GridSearch V F L) (msg : String),
       gs.fit Xtr ytr param_grid none scoring threads = Except.ok (gs₁, msg) →
       ∀ r ∈ gs₁.ranked,
         r.2.2 = toEvalScore
           (evalCV gs.model scoring r.2.1 (Xtr.zip ytr) gs.cv_folds)) := by
  constructor
  · intro Xv yv gs₁ msg h
    obtain ⟨h1, h2, h3, hgs, hmsg⟩ := fit_ok_spec h
    subst hgs hmsg
    constructor
    · intro r hr
      exact (mem_rankedOf hr).2
    · intro k'
      have hfit := fit_ok_of_checks
        (GridSearch.mk gs.model k' gs.scoringUsed gs.ranked gs.best)
        Xtr ytr param_grid (some (Xv, yv)) scoring threads h1 h2 h3
      rw [hfit]
      rfl
  · intro gs₁ msg h
    obtain ⟨h1, h2, h3, hgs, hmsg⟩ := fit_ok_spec h
    subst hgs
    intro r hr
    exact (mem_rankedOf hr).2

/-- C2 witness: in the concrete validation-path run every recorded score is
the held-out validation score, and in the concrete cross-validation run
every recorded score is the 3-fold cross-validation score. -/
theorem C2_witness :
    (∀ r ∈ gsW1.ranked,
       r.2.2 = toEvalScore
         (estW.fitScore (some "r2") r.2.1 (XW.zip yW) (XvW.zip yvW))) ∧
    (∀ r ∈ gsW2.ranked,
       r.2.2 = toEvalScore (evalCV estW (some "r2") r.2.1 (XW.zip yW) 3)) :=
  ⟨((C2_validation_vs_cv gsW XW yW gridW (some "r2") 4).1 XvW yvW gsW1 msgW
      rfl).1,
   (C2_validation_vs_cv gsW XW yW gridW (some "r2") 4).2 gsW2 msgW2 rfl⟩

/-- C3: a combination whose evaluation raises is caught per combination and
recorded with the sentinel minimal score: `fit` still succeeds — and would
for any estimator behaviour with the same resolvable scoring names, with
the same printed summary — the failed combinations still appear in the
score table, whose printed count covers the whole grid, they rank after
every successfully scored combination, and whenever some combination
succeeds the retained best combination is never a failed one. -/
theorem C3_failure_isolation {V F L : Type} (gs : GridSearch V F L)
    (Xtr : List F) (ytr : List L) (param_grid : Grid V)
    (val? : Option (List F × List L)) (scoring : Option String) (threads : ℕ)
    (gs₁ : GridSearch V F L) (msg : String)
    (h : gs.fit Xtr ytr param_grid val? scoring threads = Except.ok (gs₁, msg)) :
    (∀ est' : Estimator V F L, est'.scorings = gs.model.scorings →
       (GridSearch.mk est' gs.cv_folds gs.scoringUsed gs.ranked gs.best).fit
           Xtr ytr param_grid val? scoring threads
         = Except.ok
             (GridSearch.mk est' gs.cv_folds scoring
               (rankedOf est' gs.cv_folds Xtr ytr param_grid val? scoring threads)
               (bestOf est' gs.cv_folds Xtr ytr param_grid val? scoring threads),
              msg)) ∧
    (∀ s : EvalScore, ¬ EvalScore.lt s EvalScore.failed) ∧
    gs₁.get_param_scores.Perm
      ((expandGrid param_grid).map
        (fun c => (c, comboScore gs.model scoring gs.cv_folds (Xtr.zip ytr)
          (valData val?) c))) ∧
    List.Pairwise (fun a b => a.2 = EvalScore.failed → b.2 = EvalScore.failed)
      gs₁.get_param_scores ∧
    msg = summaryLine (expandGrid param_grid).length (max 1 threads)
            (max 1 ((expandGrid param_grid).length / max 1 threads)) ∧
    (∀ c₀ ∈ expandGrid param_grid,
       comboScore gs.model scoring gs.cv_folds (Xtr.zip ytr) (valData val?) c₀
           ≠ EvalScore.failed →
       ∃ top rest, gs₁.ranked = top :: rest ∧
         gs₁.best = some (BestModel.mk top.2.1 (refitData Xtr ytr val?)) ∧
         top.2.2 ≠ EvalScore.failed) := by
  obtain ⟨h1, h2, h3, hgs, hmsg⟩ := fit_ok_spec h
  subst hgs hmsg
  refine ⟨?_, fun s => EvalScore.not_lt_failed s, ?_, ?_, rfl, ?_⟩
  · intro est' hsc
    have h3' : scoringOK est' scoring = true := by
      cases scoring with
      | none => rfl
      | some s =>
          unfold scoringOK at h3 ⊢
          rw [hsc]
          exact h3
    exact fit_ok_of_checks _ Xtr ytr param_grid val? scoring threads h1 h2 h3'
  · have hp := (rankedOf_perm gs.model gs.cv_folds Xtr ytr param_grid val?
      scoring threads).map Prod.snd
    rwa [List.enum_map_snd] at hp
  · refine List.Pairwise.map Prod.snd (fun a b hab hfail => ?_)
      (rankedOf_sorted gs.model gs.cv_folds Xtr ytr param_grid val? scoring threads)
    rcases hab with hlt | ⟨heq, _⟩
    · rw [hfail] at hlt
      exact absurd hlt (EvalScore.not_lt_failed _)
    · rw [← heq]
      exact hfail
  · intro c₀ hc₀ hok
    have hperm := rankedOf_perm gs.model gs.cv_folds Xtr ytr param_grid val?
      scoring threads
    have hperm2 := hperm.map Prod.snd
    rw [List.enum_map_snd] at hperm2
    have hmem :
        (c₀, comboScore gs.model scoring gs.cv_folds (Xtr.zip ytr)
          (valData val?) c₀) ∈
          (expandGrid param_grid).map
            (fun c => (c, comboScore gs.model scoring gs.cv_folds (Xtr.zip ytr)
              (valData val?) c)) :=
      List.mem_map_of_mem _ hc₀
    have hmem2 := hperm2.mem_iff.mpr hmem
    obtain ⟨e, heR, he2⟩ := List.mem_map.mp hmem2
    have hescore : e.2.2 ≠ EvalScore.failed := by
      have := congrArg Prod.snd he2
      simp only at this
      rw [this]
      exact hok
    have hsorted := rankedOf_sorted gs.model gs.cv_folds Xtr ytr param_grid
      val? scoring threads
    cases hRc : rankedOf gs.model gs.cv_folds Xtr ytr param_grid val? scoring
        threads with
    | nil =>
        rw [hRc] at heR
        exact absurd heR (List.not_mem_nil e)
    | cons top rest =>
        refine ⟨top, rest, rfl, ?_, ?_⟩
        · show bestOf gs.model gs.cv_folds Xtr ytr param_grid val? scoring
            threads = some (BestModel.mk top.2.1 (refitData Xtr ytr val?))
          unfold bestOf
          rw [hRc]
          rfl
        · rw [hRc] at heR hsorted
          rcases List.mem_cons.mp heR with rfl | hrest
          · exact hescore
          · intro htop
            have hle := (List.sorted_cons.mp hsorted).1 e hrest
            rcases hle with hlt | ⟨heq, _⟩
            · rw [htop] at hlt
              exact absurd hlt (EvalScore.not_lt_failed _)
            · rw [htop] at heq
              exact hescore heq.symm

/-- C3 witness: in the concrete run `fitF` one combination's evaluation
raises; `fit` still succeeds, the failed entries rank last, and the
retained best combination is not the failed one. -/
theorem C3_witness :
    gsF.fit XW yW gridW (some (XvW, yvW)) (some "r2") 4
        = Except.ok (gsF1, msgF) ∧
    List.Pairwise (fun a b => a.2 = EvalScore.failed → b.2 = EvalScore.failed)
      gsF1.get_param_scores ∧
    (∃ top rest, gsF1.ranked = top :: rest ∧
       gsF1.best = some (BestModel.mk top.2.1 (refitData XW yW (some (XvW, yvW)))) ∧
       top.2.2 ≠ EvalScore.failed) := by
  have hc := C3_failure_isolation gsF XW yW gridW (some (XvW, yvW))
    (some "r2") 4 gsF1 msgF rfl
  exact ⟨rfl, hc.2.2.2.1,
    hc.2.2.2.2.2 [("C", 1), ("gamma", 4)] (by decide) (by decide)⟩

/-- C4: `fit` fails with ConfigurationError exactly when the grid is empty
or some parameter's value list is empty, and with ShapeMismatchError when
the training (or supplied validation) arrays' first-dimension lengths
disagree; in both cases it aborts before any evaluation work — the result
does not depend on the estimator at all, since the statement holds for
every `gs` — and the stateful view returns the state unchanged: no new
entries in `get_param_scores`, no best model, no printed summary. -/
theorem C4_fail_fast {V F L : Type} (gs : GridSearch V F L) (Xtr : List F)
    (ytr : List L) (param_grid : Grid V) (val? : Option (List F × List L))
    (scoring : Option String) (threads : ℕ) :
    (gridOK param_grid = false ↔
       param_grid = [] ∨ ∃ p ∈ param_grid, p.2 = []) ∧
    (shapesOK Xtr ytr val? = false ↔
       Xtr.length ≠ ytr.length ∨ ∃ v ∈ val?, v.1.length ≠ v.2.length) ∧
    (gridOK param_grid = false →
       gs.fitS Xtr ytr param_grid val? scoring threads
         = (gs, some FitError.configurationError, none)) ∧
    (gridOK param_grid = true → shapesOK Xtr ytr val? = false →
       gs.fitS Xtr ytr param_grid val? scoring threads
         = (gs, some FitError.shapeMismatchError, none)) := by
  refine ⟨?_, ?_, ?_, ?_⟩
  · rw [← Bool.not_eq_true]
    simp only [gridOK, Bool.and_eq_true, Bool.not_eq_true', List.isEmpty_iff,
      List.all_eq_true, not_and, not_forall]
    constructor
    · intro hx
      by_cases hnil : param_grid = []
      · exact Or.inl hnil
      · obtain ⟨p, hp, hpe⟩ := hx (by simpa using hnil)
        exact Or.inr ⟨p, hp, by simpa using hpe⟩
    · intro hx hne
      rcases hx with hnil | ⟨p, hp, hpe⟩
      · exact absurd hnil (by simpa using hne)
      · exact ⟨p, hp, by simpa using hpe⟩
  · rw [← Bool.not_eq_true]
    cases val? with
    | none => simp [shapesOK]
    | some v =>
        simp only [shapesOK, Bool.and_eq_true, beq_iff_eq, not_and,
          Option.mem_def, Option.some.injEq]
        constructor
        · intro hx
          by_cases he : Xtr.length = ytr.length
          · have := hx he
            refine Or.inr ⟨v, rfl, ?_⟩
            simpa using this
          · exact Or.inl he
        · intro hx he
          rcases hx with hne | ⟨v', hv', hne⟩
          · exact absurd he hne
          · cases hv'
            simpa using hne
  · intro h1
    unfold GridSearch.fitS
    rw [fit_config_error gs Xtr ytr param_grid val? scoring threads h1]
  · intro h1 h2
    unfold GridSearch.fitS
    rw [fit_shape_error gs Xtr ytr param_grid val? scoring threads h1 h2]

/-- C4 witness: an empty grid is rejected with ConfigurationError and
mismatched training lengths with ShapeMismatchError, each leaving the
state unchanged. -/
theorem C4_witness :
    gsW.fitS XW yW ([] : Grid ℕ) none none 4
        = (gsW, some FitError.configurationError, none) ∧
    gsW.fitS [1] ([] : List ℕ) gridW none none 4
        = (gsW, some FitError.shapeMismatchError, none) :=
  ⟨(C4_fail_fast gsW XW yW ([] : Grid ℕ) none none 4).2.2.1 rfl,
   (C4_fail_fast gsW [1] ([] : List ℕ) gridW none none 4).2.2.2 rfl rfl⟩

/-- C7 counterexample: with 4 combinations and 12 available CPU threads the
summary printed by `fit` — which matches the notebook's recorded output
`Comparing 4 parameter setting(s) using 12 CPU thread(s) ( 1 job(s) per
thread ).` verbatim — states 12 worker threads, whereas
min(parallelism, combinations) = 4, so the worker/thread count reported by
`fit` is not `min` of the configured parallelism and the number of
combinations. -/
theorem C7_counterexample :
    fitC7.map Prod.snd
      = Except.ok
          "Comparing 4 parameter setting(s) using 12 CPU thread(s) ( 1 job(s) per thread )." ∧
    min 12 (expandGrid gridC7).length ≠ 12 ∧
    summaryLine (expandGrid gridC7).length (min 12 (expandGrid gridC7).length)
        (max 1 ((expandGrid gridC7).length / min 12 (expandGrid gridC7).length))
      ≠ "Comparing 4 parameter setting(s) using 12 CPU thread(s) ( 1 job(s) per thread )." :=
  ⟨rfl, by decide, by decide⟩

/-- C7 (amended): during `fit` the combinations are split into contiguous
chunks across `max 1 threads` worker threads — the available parallelism,
independent of the number of combinations, as the notebook's recorded
output shows — with chunk sizes as even as possible and any remainder on
the earliest workers, and `fit` prints a one-line summary stating how many
combinations were compared, that thread count, and
`max 1 (combinations / threads)` jobs per thread. -/
theorem C7_partition_summary {V F L : Type} (gs : GridSearch V F L)
    (Xtr : List F) (ytr : List L) (param_grid : Grid V)
    (val? : Option (List F × List L)) (scoring : Option String) (threads : ℕ)
    (gs₁ : GridSearch V F L) (msg : String)
    (h : gs.fit Xtr ytr param_grid val? scoring threads = Except.ok (gs₁, msg)) :
    msg = summaryLine (expandGrid param_grid).length (max 1 threads)
            (max 1 ((expandGrid param_grid).length / max 1 threads)) ∧
    (workChunks (max 1 threads) (expandGrid param_grid)).length = max 1 threads ∧
    (workChunks (max 1 threads) (expandGrid param_grid)).flatten
        = expandGrid param_grid ∧
    (∀ i, i < max 1 threads →
       ((workChunks (max 1 threads) (expandGrid param_grid)).getD i []).length
         = (expandGrid param_grid).length / max 1 threads
             + if i < (expandGrid param_grid).length % max 1 threads then 1 else 0) ∧
    gs₁.ranked.Perm
      (((expandGrid param_grid).zip
          (dispatchScores gs.model scoring gs.cv_folds (Xtr.zip ytr)
            (valData val?) (max 1 threads) (expandGrid param_grid))).enum) := by
  obtain ⟨h1, h2, h3, hgs, hmsg⟩ := fit_ok_spec h
  subst hgs hmsg
  refine ⟨rfl, workChunks_length _ _, workChunks_flatten _ (by omega) _, ?_, ?_⟩
  · intro i hi
    exact workChunks_getD_length _ (by omega) _ i hi
  · exact List.perm_insertionSort resLE _

/-- C7 witness: the concrete four-combination run with 12 threads succeeds
and prints the summary with the full thread count and one job per
thread. -/
theorem C7_witness :
    gsW.fit XW yW gridC7 (some (XvW, yvW)) none 12 = Except.ok (gsC71, msgC7) ∧
    msgC7 = summaryLine (expandGrid gridC7).length (max 1 12)
              (max 1 ((expandGrid gridC7).length / max 1 12)) :=
  ⟨rfl,
   (C7_partition_summary gsW XW yW gridC7 (some (XvW, yvW)) none 12 gsC71
      msgC7 rfl).1⟩

theorem enum_map_pair {α β : Type} (g : α → β) (l : List α) :
    (l.map (fun a => (a, g a))).enum.map (fun r => (r.1, r.2.1)) = l.enum := by
  rw [List.enum_map, List.map_map]
  have hcomp :
      ((fun r : ℕ × α × β => (r.1, r.2.1)) ∘ Prod.map id (fun a => (a, g a)))
        = fun p : ℕ × α => p := by
    funext p
    rfl
  rw [hcomp]
  simp

/-- C8: `fit` expands the parameter grid into the full cartesian product of
combinations in a deterministic, reproducible order — nested iteration
following the grid's key insertion order (first key slowest), with one
combination per element of the product, every combination's key list equal
to the grid's key list, and the notebook's example grid shape expanding to
exactly its nested enumeration — and the combinations `fit` ranks carry
exactly this enumeration, index for index. -/
theorem C8_grid_expansion {V F L : Type} (gs : GridSearch V F L)
    (Xtr : List F) (ytr : List L) (param_grid : Grid V)
    (val? : Option (List F × List L)) (scoring : Option String) (threads : ℕ) :
    (∀ (k : String) (vs : List V) (rest : Grid V),
       expandGrid ((k, vs) :: rest)
         = vs.flatMap (fun v => (expandGrid rest).map (fun c => (k, v) :: c))) ∧
    (∀ g : Grid V, (expandGrid g).length = (g.map (fun p => p.2.length)).prod) ∧
    (∀ g : Grid V, ∀ c ∈ expandGrid g, c.map Prod.fst = g.map Prod.fst) ∧
    expandGrid [(("C" : String), [(1 : ℕ), 10, 100]), ("gamma", [4, 5]), ("kernel", [9])]
      = [[("C", 1), ("gamma", 4), ("kernel", 9)],
         [("C", 1), ("gamma", 5), ("kernel", 9)],
         [("C", 10), ("gamma", 4), ("kernel", 9)],
         [("C", 10), ("gamma", 5), ("kernel", 9)],
         [("C", 100), ("gamma", 4), ("kernel", 9)],
         [("C", 100), ("gamma", 5), ("kernel", 9)]] ∧
    (∀ (gs₁ : GridSearch V F L) (msg : String),
       gs.fit Xtr ytr param_grid val? scoring threads = Except.ok (gs₁, msg) →
       (gs₁.ranked.map (fun r => (r.1, r.2.1))).Perm (expandGrid param_grid).enum) := by
  refine ⟨expandGrid_cons, expandGrid_length, expandGrid_keys, rfl, ?_⟩
  intro gs₁ msg h
  obtain ⟨h1, h2, h3, hgs, hmsg⟩ := fit_ok_spec h
  subst hgs
  have hp := (rankedOf_perm gs.model gs.cv_folds Xtr ytr param_grid val?
    scoring threads).map (fun r => (r.1, r.2.1))
  rwa [enum_map_pair] at hp

/-- C8 witness: the combinations ranked by the concrete run `fitW` are, up
to the documented reordering, exactly the enumerated expansion of its
grid. -/
theorem C8_witness :
    (gsW1.ranked.map (fun r => (r.1, r.2.1))).Perm (expandGrid gridW).enum :=
  (C8_grid_expansion gsW XW yW gridW (some (XvW, yvW)) (some "r2") 4).2.2.2.2
    gsW1 msgW rfl

theorem fit_best_head {V F L : Type} {gs : GridSearch V F L} {Xtr : List F}
    {ytr : List L} {param_grid : Grid V} {val? : Option (List F × List L)}
    {scoring : Option String} {threads : ℕ} {gs₁ : GridSearch V F L}
    {msg : String}
    (h : gs.fit Xtr ytr param_grid val? scoring threads = Except.ok (gs₁, msg)) :
    ∃ top rest, gs₁.ranked = top :: rest ∧ (∀ e ∈ gs₁.ranked, resLE top e) ∧
      gs₁.best = some (BestModel.mk top.2.1 (refitData Xtr ytr val?)) := by
  obtain ⟨h1, h2, h3, hgs, hmsg⟩ := fit_ok_spec h
  subst hgs
  have hne : rankedOf gs.model gs.cv_folds Xtr ytr param_grid val? scoring
      threads ≠ [] := by
    have hpos : 0 < (expandGrid param_grid).length :=
      List.length_pos.mpr (expandGrid_ne_nil param_grid h1)
    have hlen := rankedOf_length gs.model gs.cv_folds Xtr ytr param_grid val?
      scoring threads
    intro hnil
    rw [hnil] at hlen
    simp only [List.length_nil] at hlen
    omega
  have hsorted := rankedOf_sorted gs.model gs.cv_folds Xtr ytr param_grid val?
    scoring threads
  cases hRc : rankedOf gs.model gs.cv_folds Xtr ytr param_grid val? scoring
      threads with
  | nil => exact absurd hRc hne
  | cons top rest =>
      rw [hRc] at hsorted
      refine ⟨top, rest, rfl, ?_, ?_⟩
      · intro e he
        rcases List.mem_cons.mp he with rfl | hrest
        · exact resLE.refl e
        · exact (List.sorted_cons.mp hsorted).1 e hrest
      · show bestOf gs.model gs.cv_folds Xtr ytr param_grid val? scoring
            threads = some (BestModel.mk top.2.1 (refitData Xtr ytr val?))
        unfold bestOf
        rw [hRc]
        rfl

/-- C9: at the end of `fit` the retained best model — the one `score` and
`predict` delegate to — is a fresh estimator configured with the
top-ranked combination (the head of the ranking, which `resLE`-dominates
every entry) and refit on the concatenation of the training and validation
rows when a validation set was supplied, or on the full training set on
the cross-validation path. -/
theorem C9_best_model_refit {V F L : Type} (gs : GridSearch V F L)
    (Xtr : List F) (ytr : List L) (param_grid : Grid V)
    (scoring : Option String) (threads : ℕ) :
    (∀ (Xv : List F) (yv : List L) (gs₁ : GridSearch V F L) (msg : String),
       gs.fit Xtr ytr param_grid (some (Xv, yv)) scoring threads
           = Except.ok (gs₁, msg) →
       ∃ top rest, gs₁.ranked = top :: rest ∧ (∀ e ∈ gs₁.ranked, resLE top e) ∧
         gs₁.best = some (BestModel.mk top.2.1 (Xtr.zip ytr ++ Xv.zip yv))) ∧
    (∀ (gs₁ : GridSearch V F L) (msg : String),
       gs.fit Xtr ytr param_grid none scoring threads = Except.ok (gs₁, msg) →
       ∃ top rest, gs₁.ranked = top :: rest ∧ (∀ e ∈ gs₁.ranked, resLE top e) ∧
         gs₁.best = some (BestModel.mk top.2.1 (Xtr.zip ytr))) := by
  constructor
  · intro Xv yv gs₁ msg h
    exact fit_best_head h
  · intro gs₁ msg h
    exact fit_best_head h

/-- C9 witness: in the concrete validation-path run the best model is the
top-ranked combination refit on train plus validation rows, and in the
concrete cross-validation run it is refit on the training rows alone. -/
theorem C9_witness :
    (∃ top rest, gsW1.ranked = top :: rest ∧ (∀ e ∈ gsW1.ranked, resLE top e) ∧
       gsW1.best = some (BestModel.mk top.2.1 (XW.zip yW ++ XvW.zip yvW))) ∧
    (∃ top rest, gsW2.ranked = top :: rest ∧ (∀ e ∈ gsW2.ranked, resLE top e) ∧
       gsW2.best = some (BestModel.mk top.2.1 (XW.zip yW))) :=
  ⟨(C9_best_model_refit gsW XW yW gridW (some "r2") 4).1 XvW yvW gsW1 msgW rfl,
   (C9_best_model_refit gsW XW yW gridW (some "r2") 4).2 gsW2 msgW2 rfl⟩

end Hypopt
